import Mathlib

/-!
Verification development for the `harvest` feed aggregator
(`src/feed/fetcher.go`).  Go strings are modelled as `List Char` (one
`Char` per rune); Go's `time.Time` is modelled by the record `GoTime`
together with an absolute-instant function.  All definitions are
executable translations of the corresponding Go functions; library
collaborators (`html.UnescapeString`, `time.Parse`, `sort.Slice`) are
modelled at the fidelity the source uses them.
-/

set_option maxRecDepth 10000

abbrev Str := List Char

/-- Lowercase an ASCII letter; other characters are unchanged.  Models the
ASCII case-folding used by Go's `time` package name matching. -/
def lowerChar (c : Char) : Char :=
  if 65 ≤ c.toNat ∧ c.toNat ≤ 90 then Char.ofNat (c.toNat + 32) else c

/-- Character class of the RE2 pattern `\s`: tab, newline, form feed,
carriage return, space (Go `regexp`, used in `cleanHTML`). -/
def isReSpace (c : Char) : Bool :=
  [9, 10, 12, 13, 32].contains c.toNat

/-- Go `unicode.IsSpace` (the set trimmed by `strings.TrimSpace`):
the Unicode White_Space code points. -/
def isGoSpace (c : Char) : Bool :=
  [9, 10, 11, 12, 13, 32, 133, 160, 5760, 8192, 8193, 8194, 8195, 8196,
   8197, 8198, 8199, 8200, 8201, 8202, 8232, 8233, 8239, 8287,
   12288].contains c.toNat

/-- State machine removing every match of the regular expression
pattern of angle-bracket tags (as in `regexp.MustCompile` of an
open bracket, a run of non-closing characters, and a close bracket,
replaced by the empty string in `cleanHTML`).  While no open bracket is
pending the input is copied; from an open bracket on, characters are
buffered until a closing bracket discards the buffer; a buffer still
pending at the end of input is emitted unchanged, exactly as the regex
leaves an unclosed open bracket alone. -/
def removeTagsAux : Option Str → Str → Str
  | none, [] => []
  | some buf, [] => buf
  | none, c :: rest =>
    if c = Char.ofNat 60 then removeTagsAux (some [c]) rest
    else c :: removeTagsAux none rest
  | some buf, c :: rest =>
    if c = Char.ofNat 62 then removeTagsAux none rest
    else removeTagsAux (some (buf ++ [c])) rest

def removeTags (s : Str) : Str := removeTagsAux none s

/-- Named HTML entities recognised by the model of `html.UnescapeString`
(the Go library decodes a much larger table; the model covers the
common names, each terminated by a semicolon). -/
def namedEntities : List (Str × Char) :=
  [(("amp").toList, Char.ofNat 38),
   (("lt").toList, Char.ofNat 60),
   (("gt").toList, Char.ofNat 62),
   (("quot").toList, Char.ofNat 34),
   (("apos").toList, Char.ofNat 39),
   (("nbsp").toList, Char.ofNat 160)]

def isHexDigitChar (c : Char) : Bool :=
  c.isDigit || (97 ≤ (lowerChar c).toNat && (lowerChar c).toNat ≤ 102)

def hexVal (c : Char) : Nat :=
  if c.isDigit then c.toNat - 48 else (lowerChar c).toNat - 87

def digitsToNat (ds : Str) : Nat :=
  ds.foldl (fun acc c => acc * 10 + (c.toNat - 48)) 0

def hexToNat (ds : Str) : Nat :=
  ds.foldl (fun acc c => acc * 16 + hexVal c) 0

/-- Turn a numeric character reference value into a character; invalid
scalar values give the replacement character, as in the Go library. -/
def charOfCode (n : Nat) : Char :=
  if n < 55296 ∨ (57344 ≤ n ∧ n < 1114112) then Char.ofNat n
  else Char.ofNat 65533

def matchNamed : List (Str × Char) → Str → Option (Char × Str)
  | [], _ => none
  | (name, ch) :: rest, s =>
    if (name ++ [Char.ofNat 59]).isPrefixOf s then
      some (ch, s.drop (name.length + 1))
    else matchNamed rest s

/-- Try to read one entity body (everything after the ampersand):
a named entity or a decimal/hexadecimal numeric reference, each
terminated by a semicolon.  Returns the decoded character and the
remaining input. -/
def matchEntity (s : Str) : Option (Char × Str) :=
  match matchNamed namedEntities s with
  | some r => some r
  | none =>
    match s with
    | c :: rest =>
      if c = Char.ofNat 35 then
        match rest with
        | x :: rest2 =>
          if lowerChar x = Char.ofNat 120 then
            let ds := rest2.takeWhile isHexDigitChar
            if ds ≠ [] ∧ (rest2.drop ds.length).head? = some (Char.ofNat 59)
            then some (charOfCode (hexToNat ds), (rest2.drop ds.length).drop 1)
            else none
          else
            let ds := rest.takeWhile Char.isDigit
            if ds ≠ [] ∧ (rest.drop ds.length).head? = some (Char.ofNat 59)
            then some (charOfCode (digitsToNat ds), (rest.drop ds.length).drop 1)
            else none
        | [] => none
      else none
    | [] => none

/-- Fuel-indexed worker for the model of `html.UnescapeString`: at an
ampersand, a recognised entity is replaced by its character and scanning
resumes after it; otherwise the ampersand is kept literally.  Each step
consumes at least one input character, so fuel equal to the input length
makes the zero-fuel branch unreachable. -/
def unescapeAux : Nat → Str → Str
  | _, [] => []
  | 0, s => s
  | Nat.succ f, c :: rest =>
    if c = Char.ofNat 38 then
      match matchEntity rest with
      | some (ch, rest2) => ch :: unescapeAux f rest2
      | none => c :: unescapeAux f rest
    else c :: unescapeAux f rest

def unescapeString (s : Str) : Str := unescapeAux s.length s

/-- State machine replacing every maximal run of RE2 whitespace by a
single space (the replacement of the one-or-more-whitespace pattern in
`cleanHTML`).  The flag records whether the previous character belonged
to a run already replaced. -/
def collapseWsAux : Bool → Str → Str
  | _, [] => []
  | inRun, c :: rest =>
    if isReSpace c then
      if inRun then collapseWsAux true rest
      else Char.ofNat 32 :: collapseWsAux true rest
    else c :: collapseWsAux false rest

def collapseWs (s : Str) : Str := collapseWsAux false s

/-- Remove the maximal trailing run of Unicode whitespace
(right half of `strings.TrimSpace`). -/
def trimRight : Str → Str
  | [] => []
  | c :: rest =>
    match trimRight rest with
    | [] => if isGoSpace c then [] else [c]
    | r => c :: r

/-- Model of `strings.TrimSpace`: drop leading and trailing Unicode
whitespace. -/
def trimSpace (s : Str) : Str := trimRight (s.dropWhile isGoSpace)

/-- Translation of `cleanHTML` from `fetcher.go`: remove tags, decode
entities, collapse whitespace runs, truncate past `maxLength` (dropping
one trailing space or period before appending three dots), then trim. -/
def cleanHTML (input : Str) (maxLength : Nat) : Str :=
  let cleaned := removeTags input
  let cleaned2 := unescapeString cleaned
  let cleaned3 := collapseWs cleaned2
  let cleaned4 :=
    if maxLength < cleaned3.length then
      let t := cleaned3.take maxLength
      let t2 :=
        match t.getLast? with
        | some c =>
          if c = Char.ofNat 32 ∨ c = Char.ofNat 46 then t.dropLast else t
        | none => t
      t2 ++ [Char.ofNat 46, Char.ofNat 46, Char.ofNat 46]
    else cleaned3
  trimSpace cleaned4

/-- The reserved markdown characters removed by `stripMarkdown`, in the
source's order: asterisk, underscore, hash, backtick, greater-than,
less-than, square brackets, parentheses, exclamation mark, tilde,
vertical bar, curly braces, plus. -/
def invalidChars : List Char :=
  [Char.ofNat 42, Char.ofNat 95, Char.ofNat 35, Char.ofNat 96,
   Char.ofNat 62, Char.ofNat 60, Char.ofNat 91, Char.ofNat 93,
   Char.ofNat 40, Char.ofNat 41, Char.ofNat 33, Char.ofNat 126,
   Char.ofNat 124, Char.ofNat 123, Char.ofNat 125, Char.ofNat 43]

/-- Model of `strings.ReplaceAll` with the empty replacement for a
single-character pattern. -/
def removeChar (c : Char) (s : Str) : Str := s.filter (fun x => x ≠ c)

/-- Translation of `stripMarkdown`: remove every occurrence of each
reserved character in turn. -/
def stripMarkdown (input : Str) : Str :=
  invalidChars.foldl (fun acc c => removeChar c acc) input

/-- The sanitization pipeline applied by `getDescription` to a selected
candidate: `stripMarkdown(cleanHTML(text, 200))`. -/
def sanitize (text : Str) : Str := stripMarkdown (cleanHTML text 200)

/-- Model of Go's `time.Time` as produced by `time.Parse` without a
location argument: broken-down civil fields plus a fixed zone offset in
seconds east of UTC. -/
structure GoTime where
  year : Int
  month : Nat
  day : Nat
  hour : Nat
  minute : Nat
  second : Nat
  nano : Nat
  offset : Int
deriving DecidableEq, Repr

/-- The zero value `time.Parse` starts from: January 1 of year 0, UTC. -/
def goTimeZero : GoTime := ⟨0, 1, 1, 0, 0, 0, 0, 0⟩

def setYear (t : GoTime) (v : Int) : GoTime :=
  ⟨v, t.month, t.day, t.hour, t.minute, t.second, t.nano, t.offset⟩

def setMonth (t : GoTime) (v : Nat) : GoTime :=
  ⟨t.year, v, t.day, t.hour, t.minute, t.second, t.nano, t.offset⟩

def setDay (t : GoTime) (v : Nat) : GoTime :=
  ⟨t.year, t.month, v, t.hour, t.minute, t.second, t.nano, t.offset⟩

def setHour (t : GoTime) (v : Nat) : GoTime :=
  ⟨t.year, t.month, t.day, v, t.minute, t.second, t.nano, t.offset⟩

def setMinute (t : GoTime) (v : Nat) : GoTime :=
  ⟨t.year, t.month, t.day, t.hour, v, t.second, t.nano, t.offset⟩

def setSecond (t : GoTime) (v : Nat) : GoTime :=
  ⟨t.year, t.month, t.day, t.hour, t.minute, v, t.nano, t.offset⟩

def setNano (t : GoTime) (v : Nat) : GoTime :=
  ⟨t.year, t.month, t.day, t.hour, t.minute, t.second, v, t.offset⟩

def setOffset (t : GoTime) (v : Int) : GoTime :=
  ⟨t.year, t.month, t.day, t.hour, t.minute, t.second, t.nano, v⟩

/-- Tokens of the Go reference-time layouts appearing in `dateFormats`
(each layout string below is tokenized exactly as Go's layout scanner
tokenizes it). -/
inductive DTok where
  | lit : Str → DTok
  | dayName : DTok
  | monthName : DTok
  | monthNameLong : DTok
  | year4 : DTok
  | month2 : DTok
  | day2 : DTok
  | dayNoPad : DTok
  | hour2 : DTok
  | min2 : DTok
  | sec2 : DTok
  | fracOpt : DTok
  | zoneNumeric : DTok
  | zoneColon : DTok
  | zoneAbbrev : DTok

/-- Read exactly `n` decimal digits, returning their value and the rest. -/
def getDigitsAux : Nat → Nat → Str → Option (Nat × Str)
  | acc, 0, s => some (acc, s)
  | acc, Nat.succ n, c :: rest =>
    if c.isDigit then getDigitsAux (acc * 10 + (c.toNat - 48)) n rest
    else none
  | _, Nat.succ _, [] => none

def getDigits (n : Nat) (s : Str) : Option (Nat × Str) := getDigitsAux 0 n s

/-- Read one or two decimal digits (Go's non-fixed `getnum`). -/
def getNum1or2 : Str → Option (Nat × Str)
  | c1 :: c2 :: rest =>
    if c1.isDigit then
      if c2.isDigit then some ((c1.toNat - 48) * 10 + (c2.toNat - 48), rest)
      else some (c1.toNat - 48, c2 :: rest)
    else none
  | c1 :: [] => if c1.isDigit then some (c1.toNat - 48, []) else none
  | [] => none

def startsWithCI : Str → Str → Bool
  | [], _ => true
  | _ :: _, [] => false
  | p :: ps, c :: cs => lowerChar p = lowerChar c && startsWithCI ps cs

/-- Case-insensitive lookup of a name table against a prefix of the
input, as in the Go `time` package's name matching. -/
def matchOneOfCI : List (Nat × Str) → Str → Option (Nat × Str)
  | [], _ => none
  | (v, name) :: rest, s =>
    if startsWithCI name s then some (v, s.drop name.length)
    else matchOneOfCI rest s

def shortDayNames : List (Nat × Str) :=
  [(0, ("Sun").toList), (1, ("Mon").toList), (2, ("Tue").toList),
   (3, ("Wed").toList), (4, ("Thu").toList), (5, ("Fri").toList),
   (6, ("Sat").toList)]

def longMonthNames : List (Nat × Str) :=
  [(1, ("January").toList), (2, ("February").toList), (3, ("March").toList),
   (4, ("April").toList), (5, ("May").toList), (6, ("June").toList),
   (7, ("July").toList), (8, ("August").toList), (9, ("September").toList),
   (10, ("October").toList), (11, ("November").toList),
   (12, ("December").toList)]

def shortMonthNames : List (Nat × Str) :=
  longMonthNames.map (fun p => (p.1, p.2.take 3))

/-- Read a numeric zone of the shape sign, two hour digits, two minute
digits (layout token of the minus-zero-seven-zero-zero form). -/
def parseZoneNumeric (s : Str) : Option (Int × Str) :=
  match s with
  | sign :: rest =>
    if sign = Char.ofNat 43 ∨ sign = Char.ofNat 45 then
      match getDigits 2 rest with
      | some (hh, rest2) =>
        match getDigits 2 rest2 with
        | some (mm, rest3) =>
          if hh ≤ 23 ∧ mm ≤ 59 then
            let off : Int := (hh * 3600 + mm * 60 : Nat)
            some (if sign = Char.ofNat 45 then -off else off, rest3)
          else none
        | none => none
      | none => none
    else none
  | [] => none

/-- Read an ISO zone: the letter Z, or sign, hours, colon, minutes
(layout token of the Z-zero-seven-colon form). -/
def parseZoneColon (s : Str) : Option (Int × Str) :=
  match s with
  | c :: rest =>
    if c = Char.ofNat 90 then some (0, rest)
    else if c = Char.ofNat 43 ∨ c = Char.ofNat 45 then
      match getDigits 2 rest with
      | some (hh, rest2) =>
        match rest2 with
        | sep :: rest3 =>
          if sep = Char.ofNat 58 then
            match getDigits 2 rest3 with
            | some (mm, rest4) =>
              if hh ≤ 23 ∧ mm ≤ 59 then
                let off : Int := (hh * 3600 + mm * 60 : Nat)
                some (if c = Char.ofNat 45 then -off else off, rest4)
              else none
            | none => none
          else none
        | [] => none
      | none => none
    else none
  | [] => none

def isUpperAscii (c : Char) : Bool := 65 ≤ c.toNat && c.toNat ≤ 90

/-- Read a zone abbreviation: three or four uppercase ASCII letters,
taken with offset zero (model of Go's abbreviation parsing, which
resolves unknown names to a fabricated zone at offset zero when no
location is supplied). -/
def parseZoneAbbrev (s : Str) : Option (Int × Str) :=
  let run := s.takeWhile isUpperAscii
  if run.length = 3 ∨ run.length = 4 then some (0, s.drop run.length)
  else none

def pow10 : Nat → Nat
  | 0 => 1
  | Nat.succ n => 10 * pow10 n

/-- Optional fractional seconds: a period followed by up to nine digits,
scaled to nanoseconds; absent fraction consumes nothing. -/
def parseFracOpt (s : Str) : Option (Nat × Str) :=
  match s with
  | c :: rest =>
    if c = Char.ofNat 46 then
      let ds := rest.takeWhile Char.isDigit
      if ds ≠ [] ∧ ds.length ≤ 9 then
        some (digitsToNat ds * pow10 (9 - ds.length), rest.drop ds.length)
      else none
    else some (0, s)
  | [] => some (0, s)

/-- Consume one layout token from the input, updating the parse state. -/
def runTok (st : GoTime) : DTok → Str → Option (GoTime × Str)
  | DTok.lit ls, s =>
    if ls.isPrefixOf s then some (st, s.drop ls.length) else none
  | DTok.dayName, s =>
    match matchOneOfCI shortDayNames s with
    | some (_, rest) => some (st, rest)
    | none => none
  | DTok.monthName, s =>
    match matchOneOfCI shortMonthNames s with
    | some (v, rest) => some (setMonth st v, rest)
    | none => none
  | DTok.monthNameLong, s =>
    match matchOneOfCI longMonthNames s with
    | some (v, rest) => some (setMonth st v, rest)
    | none => none
  | DTok.year4, s =>
    match getDigits 4 s with
    | some (v, rest) => some (setYear st v, rest)
    | none => none
  | DTok.month2, s =>
    match getDigits 2 s with
    | some (v, rest) => some (setMonth st v, rest)
    | none => none
  | DTok.day2, s =>
    match getDigits 2 s with
    | some (v, rest) => some (setDay st v, rest)
    | none => none
  | DTok.dayNoPad, s =>
    match getNum1or2 s with
    | some (v, rest) => some (setDay st v, rest)
    | none => none
  | DTok.hour2, s =>
    match getNum1or2 s with
    | some (v, rest) => some (setHour st v, rest)
    | none => none
  | DTok.min2, s =>
    match getDigits 2 s with
    | some (v, rest) => some (setMinute st v, rest)
    | none => none
  | DTok.sec2, s =>
    match getDigits 2 s with
    | some (v, rest) => some (setSecond st v, rest)
    | none => none
  | DTok.fracOpt, s =>
    match parseFracOpt s with
    | some (v, rest) => some (setNano st v, rest)
    | none => none
  | DTok.zoneNumeric, s =>
    match parseZoneNumeric s with
    | some (v, rest) => some (setOffset st v, rest)
    | none => none
  | DTok.zoneColon, s =>
    match parseZoneColon s with
    | some (v, rest) => some (setOffset st v, rest)
    | none => none
  | DTok.zoneAbbrev, s =>
    match parseZoneAbbrev s with
    | some (v, rest) => some (setOffset st v, rest)
    | none => none

/-- Run a whole layout against the input; the input must be consumed
exactly, as `time.Parse` requires. -/
def runToks : GoTime → List DTok → Str → Option GoTime
  | st, [], [] => some st
  | _, [], _ :: _ => none
  | st, t :: ts, s =>
    match runTok st t s with
    | some (st2, s2) => runToks st2 ts s2
    | none => none

def isLeapYear (y : Int) : Bool := y % 4 = 0 && (y % 100 ≠ 0 || y % 400 = 0)

def daysInMonth (y : Int) (m : Nat) : Nat :=
  if m = 2 then (if isLeapYear y then 29 else 28)
  else if m = 4 ∨ m = 6 ∨ m = 9 ∨ m = 11 then 30
  else 31

/-- Range validation performed by `time.Parse` on the broken-down
fields. -/
def validTime (t : GoTime) : Bool :=
  1 ≤ t.month && t.month ≤ 12 && 1 ≤ t.day && t.day ≤ daysInMonth t.year t.month
    && t.hour ≤ 23 && t.minute ≤ 59 && t.second ≤ 59

/-- Model of `time.Parse(layout, value)` for one tokenized layout. -/
def timeParse (fmt : List DTok) (s : Str) : Option GoTime :=
  match runToks goTimeZero fmt s with
  | some t => if validTime t then some t else none
  | none => none

/-- The `dateFormats` table of `fetcher.go`, each Go layout string
tokenized by Go's layout rules.  In order: RFC1123Z, RFC1123, RFC3339,
RFC3339Nano, the bare-Z variant, the space-separated variant, the
short day-month variant with numeric zone, the literal-GMT variant,
the literal-plus-zero variant (Go reads the plus sign and zeros as
literal text, not a zone token), the date-only layout, and the long
month name layout. -/
def dateFormats : List (List DTok) :=
  [[DTok.dayName, DTok.lit ((", ").toList), DTok.day2, DTok.lit ((" ").toList),
    DTok.monthName, DTok.lit ((" ").toList), DTok.year4, DTok.lit ((" ").toList),
    DTok.hour2, DTok.lit ((":").toList), DTok.min2, DTok.lit ((":").toList),
    DTok.sec2, DTok.lit ((" ").toList), DTok.zoneNumeric],
   [DTok.dayName, DTok.lit ((", ").toList), DTok.day2, DTok.lit ((" ").toList),
    DTok.monthName, DTok.lit ((" ").toList), DTok.year4, DTok.lit ((" ").toList),
    DTok.hour2, DTok.lit ((":").toList), DTok.min2, DTok.lit ((":").toList),
    DTok.sec2, DTok.lit ((" ").toList), DTok.zoneAbbrev],
   [DTok.year4, DTok.lit (("-").toList), DTok.month2, DTok.lit (("-").toList),
    DTok.day2, DTok.lit (("T").toList), DTok.hour2, DTok.lit ((":").toList),
    DTok.min2, DTok.lit ((":").toList), DTok.sec2, DTok.zoneColon],
   [DTok.year4, DTok.lit (("-").toList), DTok.month2, DTok.lit (("-").toList),
    DTok.day2, DTok.lit (("T").toList), DTok.hour2, DTok.lit ((":").toList),
    DTok.min2, DTok.lit ((":").toList), DTok.sec2, DTok.fracOpt, DTok.zoneColon],
   [DTok.year4, DTok.lit (("-").toList), DTok.month2, DTok.lit (("-").toList),
    DTok.day2, DTok.lit (("T").toList), DTok.hour2, DTok.lit ((":").toList),
    DTok.min2, DTok.lit ((":").toList), DTok.sec2, DTok.lit (("Z").toList)],
   [DTok.year4, DTok.lit (("-").toList), DTok.month2, DTok.lit (("-").toList),
    DTok.day2, DTok.lit ((" ").toList), DTok.hour2, DTok.lit ((":").toList),
    DTok.min2, DTok.lit ((":").toList), DTok.sec2, DTok.lit ((" ").toList),
    DTok.zoneNumeric],
   [DTok.day2, DTok.lit ((" ").toList), DTok.monthName, DTok.lit ((" ").toList),
    DTok.year4, DTok.lit ((" ").toList), DTok.hour2, DTok.lit ((":").toList),
    DTok.min2, DTok.lit ((" ").toList), DTok.zoneNumeric],
   [DTok.dayName, DTok.lit ((", ").toList), DTok.day2, DTok.lit ((" ").toList),
    DTok.monthName, DTok.lit ((" ").toList), DTok.year4, DTok.lit ((" ").toList),
    DTok.hour2, DTok.lit ((":").toList), DTok.min2, DTok.lit ((":").toList),
    DTok.sec2, DTok.lit ((" GMT").toList)],
   [DTok.day2, DTok.lit ((" ").toList), DTok.monthName, DTok.lit ((" ").toList),
    DTok.year4, DTok.lit ((" ").toList), DTok.hour2, DTok.lit ((":").toList),
    DTok.min2, DTok.lit ((" +0000").toList)],
   [DTok.year4, DTok.lit (("-").toList), DTok.month2, DTok.lit (("-").toList),
    DTok.day2],
   [DTok.monthNameLong, DTok.lit ((" ").toList), DTok.dayNoPad,
    DTok.lit ((", ").toList), DTok.year4]]

/-- Raw item record as used by `fetcher.go` (the struct declaration
lives outside the fetched source file; fields are exactly those the
fetcher reads).  Unpopulated fields are empty strings. -/
structure Item where
  Title : Str
  Link : Str
  PubDate : Str
  Date : Str
  Published : Str
  Updated : Str
  Author : Str
  Creator : Str
  Description : Str
  Summary : Str
  Content : Str
  Encoded : Str
deriving DecidableEq, Repr

/-- Channel node of the raw feed tree: title plus the RSS item list and
the Atom entry list. -/
structure Channel where
  Title : Str
  Items : List Item
  Entries : List Item
deriving Repr

/-- Root of the raw feed tree: a channel and the bare entry list. -/
structure Feed where
  Channel : Channel
  Entries : List Item
deriving Repr

/-- Normalized post produced by `FetchFeed`. -/
structure BlogPost where
  Title : Str
  Link : Str
  Date : GoTime
  Author : Str
  Summary : Str
deriving DecidableEq, Repr

/-- Candidate date strings of `parseDate`, in source order. -/
def dateCandidates (item : Item) : List Str :=
  [item.PubDate, item.Date, item.Published, item.Updated]

/-- Inner loop of `parseDate`: first layout that parses the string. -/
def tryFormats (s : Str) : Option GoTime :=
  dateFormats.findSome? (fun fmt => timeParse fmt s)

/-- Outer loop of `parseDate`: skip empty candidates; on a non-empty
candidate return the first successful layout parse, otherwise fall
through to the next candidate. -/
def parseDateLoop : List Str → Option GoTime
  | [] => none
  | s :: rest =>
    if s = [] then parseDateLoop rest
    else
      match tryFormats s with
      | some t => some t
      | none => parseDateLoop rest

/-- Translation of `parseDate`: the wall clock is passed explicitly as
`now`; the Go function logs a warning and returns `time.Now()` when no
candidate parses. -/
def parseDate (now : GoTime) (item : Item) : GoTime :=
  (parseDateLoop (dateCandidates item)).getD now

/-- Candidate description strings of `getDescription`, in source order. -/
def descCandidates (item : Item) : List Str :=
  [item.Description, item.Summary, item.Content, item.Encoded]

def placeholderText : Str := ("Visit post for details.").toList

/-- Loop of `getDescription`: the first non-empty candidate is
sanitized; if all are empty the placeholder is returned unmodified. -/
def descLoop : List Str → Str
  | [] => placeholderText
  | c :: rest => if c ≠ [] then sanitize c else descLoop rest

/-- Translation of `getDescription`. -/
def getDescription (item : Item) : Str := descLoop (descCandidates item)

/-- Translation of `getAuthor`. -/
def getAuthor (item : Item) (channelTitle : Str) : Str :=
  if item.Author ≠ [] then item.Author
  else if item.Creator ≠ [] then item.Creator
  else channelTitle

/-- Item-list selection of `FetchFeed`: RSS channel items, else Atom
channel entries, else bare root entries, via the two emptiness checks of
the source. -/
def selectItems (feed : Feed) : List Item :=
  let items := feed.Channel.Items
  let items2 := if items.isEmpty then feed.Channel.Entries else items
  let items3 := if items2.isEmpty then feed.Entries else items2
  items3

/-- Construction of one normalized post in `FetchFeed`'s loop. -/
def buildPost (now : GoTime) (channelTitle : Str) (item : Item) : BlogPost :=
  ⟨item.Title, item.Link, parseDate now item, getAuthor item channelTitle,
   getDescription item⟩

/-- Post-deserialization body of `FetchFeed`: transport and XML decoding
are external collaborators, so the function is modelled from the decoded
feed tree onward. -/
def fetchFeedPosts (now : GoTime) (feed : Feed) : List BlogPost :=
  (selectItems feed).map (buildPost now feed.Channel.Title)

/-- Days from the civil epoch 1970-01-01 for a proleptic Gregorian
date (the standard era-based civil-calendar formula, with
truncating integer division). -/
def daysFromCivil (y : Int) (m : Nat) (d : Nat) : Int :=
  let yy : Int := if m ≤ 2 then y - 1 else y
  let era : Int := (if 0 ≤ yy then yy else yy - 399) / 400
  let yoe : Int := yy - era * 400
  let mp : Int := ((m : Int) + 9) % 12
  let doy : Int := (153 * mp + 2) / 5 + (d : Int) - 1
  let doe : Int := yoe * 365 + yoe / 4 - yoe / 100 + doy
  era * 146097 + doe - 719468

/-- Absolute instant of a `GoTime` in nanoseconds since the Unix epoch;
this is the quantity `time.Time.After` compares. -/
def instantNanos (t : GoTime) : Int :=
  ((daysFromCivil t.year t.month t.day) * 86400
      + (t.hour : Int) * 3600 + (t.minute : Int) * 60 + (t.second : Int)
      - t.offset) * 1000000000
    + (t.nano : Int)

/-- Model of `a.After(b)`: `a`'s instant is strictly later. -/
abbrev After (a b : GoTime) : Prop := instantNanos b < instantNanos a

/-- Order imposed on adjacent posts by the `sort.Slice` call of
`FetchAllFeeds`, whose comparator is `posts[i].Date.After(posts[j].Date)`:
a sequence sorted by that comparator is exactly one in which no later
post's date is after an earlier one's. -/
abbrev byDateDesc (a b : BlogPost) : Prop := ¬ After b.Date a.Date

instance : IsTotal BlogPost byDateDesc :=
  ⟨fun a b => by
    unfold byDateDesc After
    omega⟩

instance : IsTrans BlogPost byDateDesc :=
  ⟨fun a b c h1 h2 => by
    unfold byDateDesc After at h1 h2 ⊢
    omega⟩

/-- Model of the `sort.Slice` call: a comparison sort by the `After`
comparator. -/
def sortPosts (posts : List BlogPost) : List BlogPost :=
  List.insertionSort byDateDesc posts

/-- Join phase of `FetchAllFeeds`: each goroutine contributes its batch
on success and nothing on failure; the batches arrive in an arbitrary
order, represented by the order of the `results` list. -/
def collectPosts (results : List (Option (List BlogPost))) : List BlogPost :=
  results.foldr
    (fun r acc =>
      match r with
      | some ps => ps ++ acc
      | none => acc)
    []

/-- Translation of `FetchAllFeeds` from the join onward: concatenate the
successful batches and sort descending by date. -/
def fetchAllFeeds (results : List (Option (List BlogPost))) : List BlogPost :=
  sortPosts (collectPosts results)

/-- Item with every field empty, used as a concrete input. -/
def emptyItem : Item := ⟨[], [], [], [], [], [], [], [], [], [], [], []⟩

theorem mem_foldl_removeChar (cs : List Char) :
    ∀ (s : Str) (x : Char),
      x ∈ List.foldl (fun acc c => removeChar c acc) s cs → x ∈ s ∧ x ∉ cs := by
  induction cs with
  | nil => intro s x h; exact ⟨h, by simp⟩
  | cons c cs ih =>
    intro s x h
    have h2 := ih (removeChar c s) x h
    have h3 : x ∈ s ∧ x ≠ c := by
      have := List.mem_filter.mp h2.1
      simpa using this
    refine ⟨h3.1, ?_⟩
    simp only [List.mem_cons, not_or]
    exact ⟨h3.2, h2.2⟩

theorem length_foldl_removeChar_le (cs : List Char) :
    ∀ s : Str, (List.foldl (fun acc c => removeChar c acc) s cs).length ≤ s.length := by
  induction cs with
  | nil => intro s; simp
  | cons c cs ih =>
    intro s
    calc (List.foldl (fun acc c => removeChar c acc) (removeChar c s) cs).length
        ≤ (removeChar c s).length := ih (removeChar c s)
      _ ≤ s.length := List.length_filter_le _ _

theorem foldl_removeChar_id (cs : List Char) :
    ∀ s : Str, (∀ c ∈ cs, c ∉ s) →
      List.foldl (fun acc c => removeChar c acc) s cs = s := by
  induction cs with
  | nil => intro s _; rfl
  | cons c cs ih =>
    intro s h
    have hc : removeChar c s = s := by
      apply List.filter_eq_self.mpr
      intro a ha
      have : a ≠ c := fun hac => (h c (by simp)) (hac ▸ ha)
      simpa using this
    simpa [hc] using ih s (fun d hd => h d (by simp [hd]))

theorem stripMarkdown_id {s : Str} (h : ∀ c ∈ s, c ∉ invalidChars) :
    stripMarkdown s = s :=
  foldl_removeChar_id invalidChars s (fun c hc hcs => (h c hcs) hc)

theorem removeTagsAux_none_id : ∀ s : Str, Char.ofNat 60 ∉ s →
    removeTagsAux none s = s := by
  intro s
  induction s with
  | nil => intro _; rfl
  | cons c rest ih =>
    intro h
    have hc : c ≠ Char.ofNat 60 := fun he => h (by simp [he])
    have hr : Char.ofNat 60 ∉ rest := fun hm => h (by simp [hm])
    simp [removeTagsAux, hc, ih hr]

theorem unescapeAux_id : ∀ (s : Str) (f : Nat), Char.ofNat 38 ∉ s →
    unescapeAux f s = s := by
  intro s
  induction s with
  | nil => intro f _; cases f <;> rfl
  | cons c rest ih =>
    intro f h
    have hc : c ≠ Char.ofNat 38 := fun he => h (by simp [he])
    have hr : Char.ofNat 38 ∉ rest := fun hm => h (by simp [hm])
    cases f with
    | zero => rfl
    | succ f => simp [unescapeAux, hc, ih f hr]

theorem head?_dropWhile_not (p : Char → Bool) :
    ∀ (l : Str) (c : Char), (l.dropWhile p).head? = some c → p c = false := by
  intro l
  induction l with
  | nil => intro c h; simp [List.dropWhile] at h
  | cons a rest ih =>
    intro c h
    rw [List.dropWhile_cons] at h
    by_cases hp : p a
    · exact ih c (by simpa [hp] using h)
    · simp [hp] at h
      rw [← h]
      simpa using hp

theorem trimRight_head?_some {l : Str} {c : Char}
    (h : (trimRight l).head? = some c) : l.head? = some c := by
  cases l with
  | nil => simp [trimRight] at h
  | cons a rest =>
    rw [trimRight] at h
    rcases he : trimRight rest with _ | ⟨b, bs⟩
    · rw [he] at h
      by_cases hs : isGoSpace a
      · simp [hs] at h
      · simp [hs] at h
        simp [h]
    · rw [he] at h
      simp at h
      simp [h]

theorem trimRight_getLast?_not :
    ∀ (l : Str) (c : Char), (trimRight l).getLast? = some c → isGoSpace c = false := by
  intro l
  induction l with
  | nil => intro c h; simp [trimRight] at h
  | cons a rest ih =>
    intro c h
    rw [trimRight] at h
    rcases he : trimRight rest with _ | ⟨b, bs⟩
    · rw [he] at h
      by_cases hs : isGoSpace a
      · simp [hs] at h
      · simp [hs] at h
        simpa [← h] using hs
    · rw [he] at h
      rw [List.getLast?_cons_cons] at h
      exact ih c (he ▸ h)

theorem trimSpace_head?_not {s : Str} {c : Char}
    (h : (trimSpace s).head? = some c) : isGoSpace c = false :=
  head?_dropWhile_not isGoSpace s c (trimRight_head?_some h)

theorem trimSpace_getLast?_not {s : Str} {c : Char}
    (h : (trimSpace s).getLast? = some c) : isGoSpace c = false :=
  trimRight_getLast?_not _ c h

theorem length_trimRight_le : ∀ l : Str, (trimRight l).length ≤ l.length := by
  intro l
  induction l with
  | nil => simp [trimRight]
  | cons a rest ih =>
    rw [trimRight]
    rcases he : trimRight rest with _ | ⟨b, bs⟩
    · by_cases hs : isGoSpace a <;> simp [hs]
    · rw [he] at ih
      simpa using Nat.succ_le_succ ih

theorem length_dropWhile_le (p : Char → Bool) :
    ∀ l : Str, (l.dropWhile p).length ≤ l.length := by
  intro l
  induction l with
  | nil => simp [List.dropWhile]
  | cons a rest ih =>
    rw [List.dropWhile_cons]
    by_cases hp : p a
    · simp only [hp, if_true]
      exact Nat.le_succ_of_le ih
    · simp [hp]

theorem length_trimSpace_le (s : Str) : (trimSpace s).length ≤ s.length :=
  Nat.le_trans (length_trimRight_le _) (length_dropWhile_le isGoSpace s)

theorem length_cleanHTML_le (input : Str) (n : Nat) :
    (cleanHTML input n).length ≤ n + 3 := by
  simp only [cleanHTML]
  refine Nat.le_trans (length_trimSpace_le _) ?_
  split
  · rename_i hlen
    split
    · rename_i c hc
      split
      · simp only [List.length_append, List.length_dropLast]
        have := List.length_take_le n (collapseWs (unescapeString (removeTags input)))
        simp only [List.length_cons, List.length_nil]
        omega
      · simp only [List.length_append]
        have := List.length_take_le n (collapseWs (unescapeString (removeTags input)))
        simp only [List.length_cons, List.length_nil]
        omega
    · simp only [List.length_append]
      have := List.length_take_le n (collapseWs (unescapeString (removeTags input)))
      simp only [List.length_cons, List.length_nil]
      omega
  · rename_i hlen
    omega

theorem descLoop_eq_find (l : List Str) :
    descLoop l =
      match l.find? (fun s => !s.isEmpty) with
      | some c => sanitize c
      | none => placeholderText := by
  induction l with
  | nil => rfl
  | cons c rest ih =>
    rw [descLoop, List.find?_cons]
    by_cases hc : c = []
    · subst hc
      simpa using ih
    · have : (!List.isEmpty c) = true := by
        simpa [List.isEmpty_iff] using hc
      simp [hc, this]

theorem parseDateLoop_eq_findSome (l : List Str) :
    parseDateLoop l =
      l.findSome? (fun s => if s = [] then none else tryFormats s) := by
  induction l with
  | nil => rfl
  | cons s rest ih =>
    rw [parseDateLoop, List.findSome?_cons]
    by_cases hs : s = []
    · simpa [hs] using ih
    · simp only [hs, if_false, if_neg hs]
      cases tryFormats s with
      | some t => rfl
      | none => simpa using ih

/-- C1 (counterexample): a raw item whose `pubDate` is non-empty but
unparseable by every layout while its `date` field is parseable.  The
claim says the search commits to `pubDate` and returns the wall clock;
`parseDate` in fact moves on and returns the timestamp parsed from the
`date` field, which differs from the supplied wall-clock value. -/
theorem parseDate_does_not_commit_to_first_candidate :
    parseDate ⟨1999, 1, 1, 0, 0, 0, 0, 0⟩
        ⟨[], [], ("not a date").toList, ("2023-05-01").toList,
         [], [], [], [], [], [], [], []⟩
      = ⟨2023, 5, 1, 0, 0, 0, 0, 0⟩
    ∧ parseDate ⟨1999, 1, 1, 0, 0, 0, 0, 0⟩
        ⟨[], [], ("not a date").toList, ("2023-05-01").toList,
         [], [], [], [], [], [], [], []⟩
      ≠ ⟨1999, 1, 1, 0, 0, 0, 0, 0⟩ := by
  constructor
  · rfl
  · decide

/-- C1 (amended): `resolveDate` tries the candidate fields in order
pubDate, date, published, updated, skipping empty ones; for each
non-empty candidate every layout is tried, and the first successful
parse from any candidate is returned.  Only when no non-empty candidate
parses under any layout is the current wall-clock time returned (with a
warning). -/
theorem parseDate_first_parseable_candidate (now : GoTime) (item : Item) :
    parseDate now item
        = ((dateCandidates item).findSome?
            (fun s => if s = [] then none else tryFormats s)).getD now
    ∧ ((∀ s ∈ dateCandidates item, s = [] ∨ tryFormats s = none) →
        parseDate now item = now) := by
  constructor
  · unfold parseDate
    rw [parseDateLoop_eq_findSome]
  · intro h
    unfold parseDate
    rw [parseDateLoop_eq_findSome]
    have hn : (dateCandidates item).findSome?
        (fun s => if s = [] then none else tryFormats s) = none := by
      rw [List.findSome?_eq_none_iff]
      intro s hs
      rcases h s hs with he | hf
      · simp [he]
      · simp [hf]
    rw [hn]
    rfl

/-- Witness for C1's amended theorem: an item with every date field
empty resolves to the supplied wall-clock time. -/
theorem parseDate_first_parseable_candidate_witness :
    parseDate ⟨1999, 1, 1, 0, 0, 0, 0, 0⟩ emptyItem = ⟨1999, 1, 1, 0, 0, 0, 0, 0⟩ :=
  (parseDate_first_parseable_candidate ⟨1999, 1, 1, 0, 0, 0, 0, 0⟩ emptyItem).2
    (by decide)

/-- C2 (counterexample): an item with empty author and creator, fetched
from a channel whose title is empty, whose description is a lone
asterisk.  The constructed post has an empty author (the empty fallback
is returned as-is) and an empty summary (the asterisk survives
`cleanHTML` and is then removed by `stripMarkdown`), refuting the
invariant that both are always non-empty. -/
theorem builtPost_can_have_empty_author_and_summary :
    (buildPost ⟨1999, 1, 1, 0, 0, 0, 0, 0⟩ []
        ⟨[], [], [], [], [], [], [], [], ("*").toList, [], [], []⟩).Author = []
    ∧ (buildPost ⟨1999, 1, 1, 0, 0, 0, 0, 0⟩ []
        ⟨[], [], [], [], [], [], [], [], ("*").toList, [], [], []⟩).Summary = [] := by
  constructor
  · rfl
  · rfl

/-- C2 (amended): the constructed post's author is non-empty whenever
the channel-title fallback is non-empty, and its summary is the
non-empty placeholder whenever every description-like field is empty;
neither field is non-empty unconditionally. -/
theorem builtPost_author_summary_fallbacks (now : GoTime) (channelTitle : Str)
    (item : Item) :
    (channelTitle ≠ [] → (buildPost now channelTitle item).Author ≠ [])
    ∧ ((∀ s ∈ descCandidates item, s = []) →
        (buildPost now channelTitle item).Summary = placeholderText
          ∧ placeholderText ≠ []) := by
  constructor
  · intro hct
    show getAuthor item channelTitle ≠ []
    unfold getAuthor
    by_cases ha : item.Author ≠ []
    · simp [ha]
    · by_cases hc : item.Creator ≠ []
      · simp [ha, hc]
      · simpa [ha, hc] using hct
  · intro h
    have hd : item.Description = [] := h _ (by simp [descCandidates])
    have hs : item.Summary = [] := h _ (by simp [descCandidates])
    have hc : item.Content = [] := h _ (by simp [descCandidates])
    have he : item.Encoded = [] := h _ (by simp [descCandidates])
    constructor
    · show getDescription item = placeholderText
      unfold getDescription descCandidates
      rw [hd, hs, hc, he]
      rfl
    · decide

/-- Witness for C2's amended theorem at a concrete non-empty channel
title and an all-empty item. -/
theorem builtPost_author_summary_fallbacks_witness :
    (buildPost ⟨1999, 1, 1, 0, 0, 0, 0, 0⟩ (("T").toList) emptyItem).Author ≠ []
    ∧ (buildPost ⟨1999, 1, 1, 0, 0, 0, 0, 0⟩ (("T").toList) emptyItem).Summary
        = placeholderText :=
  ⟨(builtPost_author_summary_fallbacks ⟨1999, 1, 1, 0, 0, 0, 0, 0⟩
      (("T").toList) emptyItem).1 (by decide),
   ((builtPost_author_summary_fallbacks ⟨1999, 1, 1, 0, 0, 0, 0, 0⟩
      (("T").toList) emptyItem).2 (by decide)).1⟩

/-- C3 (counterexample): the sanitized output of the input consisting of
an asterisk, a space and the letter x begins with a space: `cleanHTML`
trims first, and the later reserved-character removal in
`stripMarkdown` exposes new leading whitespace, so the claimed
step order (remove reserved characters, then trim) and its
no-leading/trailing-whitespace consequence are both false. -/
theorem sanitize_can_leave_leading_whitespace :
    trimSpace (sanitize (("* x").toList)) ≠ sanitize (("* x").toList)
    ∧ (sanitize (("* x").toList)).head? = some (Char.ofNat 32) := by
  constructor
  · decide
  · rfl

/-- C3 (amended): the trim of leading/trailing whitespace happens inside
`cleanHTML`, before the reserved characters are removed by
`stripMarkdown`; consequently it is the intermediate `cleanHTML` output
that never has leading or trailing whitespace, while the final sanitized
output may. -/
theorem cleanHTML_output_trimmed (input : Str) (c : Char) :
    ((cleanHTML input 200).head? = some c → isGoSpace c = false)
    ∧ ((cleanHTML input 200).getLast? = some c → isGoSpace c = false) := by
  constructor
  · intro h
    exact trimSpace_head?_not (by simpa [cleanHTML] using h)
  · intro h
    exact trimSpace_getLast?_not (s := if 200 <
        (collapseWs (unescapeString (removeTags input))).length then _ else _)
      (by simpa [cleanHTML] using h)

/-- Witness for C3's amended theorem at a one-letter input. -/
theorem cleanHTML_output_trimmed_witness :
    isGoSpace (Char.ofNat 97) = false ∧ isGoSpace (Char.ofNat 97) = false :=
  ⟨(cleanHTML_output_trimmed (("a").toList) (Char.ofNat 97)).1 (by rfl),
   (cleanHTML_output_trimmed (("a").toList) (Char.ofNat 97)).2 (by rfl)⟩

/-- C4: for every input text, the sanitized output (`stripMarkdown`
after `cleanHTML` with maxLength 200) has length at most 200 plus the
length of the ellipsis marker, and contains none of the reserved markup
characters. -/
theorem sanitize_bounded_and_free_of_reserved (text : Str) :
    (sanitize text).length ≤ 200 + (("...").toList).length
    ∧ ∀ c ∈ sanitize text, c ∉ invalidChars := by
  constructor
  · have h1 : (sanitize text).length ≤ (cleanHTML text 200).length :=
      length_foldl_removeChar_le invalidChars (cleanHTML text 200)
    have h2 := length_cleanHTML_le text 200
    have h3 : (("...").toList).length = 3 := rfl
    omega
  · intro c hc
    exact (mem_foldl_removeChar invalidChars (cleanHTML text 200) c hc).2

/-- Witness for C4 at a concrete input containing markup. -/
theorem sanitize_bounded_and_free_of_reserved_witness :
    (sanitize (("<p>Hello *world*!</p>").toList)).length
        ≤ 200 + (("...").toList).length
    ∧ Char.ofNat 72 ∉ invalidChars :=
  ⟨(sanitize_bounded_and_free_of_reserved (("<p>Hello *world*!</p>").toList)).1,
   (sanitize_bounded_and_free_of_reserved (("<p>Hello *world*!</p>").toList)).2
     (Char.ofNat 72) (by decide)⟩

/-- C5: the summary source is the first non-empty of description,
summary, content, encoded-content, in that order; that candidate (and
only it) is passed to the sanitizer, and when all four are empty the
fixed placeholder is returned directly, with no sanitization applied. -/
theorem getDescription_selects_first_nonempty (item : Item) :
    getDescription item =
      match (descCandidates item).find? (fun s => !s.isEmpty) with
      | some c => sanitize c
      | none => placeholderText := by
  unfold getDescription
  exact descLoop_eq_find (descCandidates item)

/-- C6: the sequence returned by `FetchAllFeeds` is sorted by date in
non-increasing order (newest first): for any per-feed outcomes, no post
in the output is dated after a post preceding it. -/
theorem fetchAllFeeds_sorted_descending
    (results : List (Option (List BlogPost))) :
    List.Sorted byDateDesc (fetchAllFeeds results) := by
  unfold fetchAllFeeds sortPosts
  exact List.sorted_insertionSort byDateDesc (collectPosts results)

/-- C7: the item sequence comes from exactly the first non-empty of the
three locations, in the order RSS channel items, Atom channel entries,
bare root entries. -/
theorem selectItems_first_nonempty_location (feed : Feed) :
    (feed.Channel.Items ≠ [] → selectItems feed = feed.Channel.Items)
    ∧ (feed.Channel.Items = [] → feed.Channel.Entries ≠ [] →
        selectItems feed = feed.Channel.Entries)
    ∧ (feed.Channel.Items = [] → feed.Channel.Entries = [] →
        selectItems feed = feed.Entries) := by
  refine ⟨fun h1 => ?_, fun h1 h2 => ?_, fun h1 h2 => ?_⟩
  · simp [selectItems, List.isEmpty_iff, h1]
  · simp [selectItems, List.isEmpty_iff, h1, h2]
  · simp [selectItems, List.isEmpty_iff, h1, h2]

/-- Witness for C7: a feed carrying items only in the bare Atom-entries
location still has them extracted. -/
theorem selectItems_first_nonempty_location_witness :
    selectItems ⟨⟨[], [], []⟩, [emptyItem]⟩ = [emptyItem] :=
  (selectItems_first_nonempty_location ⟨⟨[], [], []⟩, [emptyItem]⟩).2.2 rfl rfl

/-- C8: `resolveAuthor` returns the item's author if non-empty, else the
item's creator if non-empty, else exactly the caller-supplied
channel-title fallback, even when that fallback is empty. -/
theorem getAuthor_fallback_chain (item : Item) (channelTitle : Str) :
    (item.Author ≠ [] → getAuthor item channelTitle = item.Author)
    ∧ (item.Author = [] → item.Creator ≠ [] →
        getAuthor item channelTitle = item.Creator)
    ∧ (item.Author = [] → item.Creator = [] →
        getAuthor item channelTitle = channelTitle) := by
  refine ⟨fun h1 => ?_, fun h1 h2 => ?_, fun h1 h2 => ?_⟩
  · simp [getAuthor, h1]
  · simp [getAuthor, h1, h2]
  · simp [getAuthor, h1, h2]

/-- Witness for C8: empty author, empty creator, empty fallback gives
the empty string back. -/
theorem getAuthor_fallback_chain_witness : getAuthor emptyItem [] = [] :=
  (getAuthor_fallback_chain emptyItem []).2.2 rfl rfl

/-- C9: `sanitize` is idempotent on already-clean plain text shorter
than 200 characters: text free of reserved characters (hence of tags),
left fixed by entity decoding, whitespace collapsing and trimming. -/
theorem sanitize_idempotent_on_clean (s : Str)
    (h1 : ∀ c ∈ s, c ∉ invalidChars)
    (h2 : unescapeString s = s)
    (h3 : collapseWs s = s)
    (h4 : trimSpace s = s)
    (h5 : s.length < 200) :
    sanitize (sanitize s) = sanitize s := by
  have h60 : Char.ofNat 60 ∉ s := fun hm => (h1 _ hm) (by decide)
  have hclean : cleanHTML s 200 = s := by
    simp only [cleanHTML, removeTags]
    rw [removeTagsAux_none_id s h60, h2, h3, if_neg (by omega)]
    exact h4
  have hsan : sanitize s = s := by
    unfold sanitize
    rw [hclean]
    exact stripMarkdown_id h1
  simp only [hsan]

/-- Witness for C9 at a concrete clean string. -/
theorem sanitize_idempotent_on_clean_witness :
    sanitize (sanitize (("hello world.").toList))
      = sanitize (("hello world.").toList) :=
  sanitize_idempotent_on_clean (("hello world.").toList)
    (by decide) (by rfl) (by rfl) (by rfl) (by decide)

/-- C10: the placeholder is substituted only when all four
description-like fields are empty; when the first non-empty candidate
sanitizes to the empty string, the summary is the empty string, not the
placeholder. -/
theorem getDescription_empty_when_sanitize_empty (item : Item) (c : Str)
    (hfind : (descCandidates item).find? (fun s => !s.isEmpty) = some c)
    (hsan : sanitize c = []) :
    getDescription item = [] ∧ getDescription item ≠ placeholderText := by
  have h : getDescription item = sanitize c := by
    unfold getDescription
    rw [descLoop_eq_find, hfind]
  rw [h, hsan]
  exact ⟨rfl, by decide⟩

/-- Witness for C10: a description consisting of a lone asterisk yields
an empty summary, not the placeholder. -/
theorem getDescription_empty_when_sanitize_empty_witness :
    getDescription ⟨[], [], [], [], [], [], [], [], ("*").toList, [], [], []⟩ = []
    ∧ getDescription ⟨[], [], [], [], [], [], [], [], ("*").toList, [], [], []⟩
        ≠ placeholderText :=
  getDescription_empty_when_sanitize_empty
    ⟨[], [], [], [], [], [], [], [], ("*").toList, [], [], []⟩
    (("*").toList) (by rfl) (by rfl)
